import Mathlib

/-!
Shallow embedding of the go-http-client request-execution pipeline.

The Go source is a single package: a configurable HTTP client with three
pluggable extension points (request options, a response validator, response
parsers) composed at two levels (client-global and per-call).  Pure Go
functions become Lean functions; the in-place mutation of an http.Request by
a RequestOption becomes explicit state passing; Go pointers that may be nil
become Option; a Go function returning error becomes a value in GoOutcome,
which also records a runtime panic (for nil-pointer dereference, which Go
turns into a panic rather than an error).  The response body is modelled as
a string already available on the Response value, so a body read never
fails; side-effect-only debug logging (logRequest / logResponse) is elided,
as it has no control-flow impact.  Observable pipeline steps (transport
dispatch, validator run, parser run, deferred body close) are recorded in
an event trace so that ordering and resource claims can be stated.
-/

namespace GoHttpClient

/-- StatusCodeError from the source: code, status text and raw body of an
unacceptable response. -/
structure StatusCodeError where
  Code : Int
  Status : String
  Body : String
deriving DecidableEq, Repr

/-- HTTPStatusCode accessor of StatusCodeError. -/
def StatusCodeError.HTTPStatusCode (t : StatusCodeError) : Int := t.Code

/-- The Error() rendering of StatusCodeError: fmt.Sprintf with code, status
and body in order. -/
def StatusCodeError.errorMessage (t : StatusCodeError) : String :=
  "error: " ++ toString t.Code ++ " | " ++ t.Status ++ " | " ++ t.Body

/-- Go error values produced by this package: a fmt.Errorf message (the
formatted %v arguments are elided, keeping the descriptive prefix), a
StatusCodeError value, or a fmt.Errorf with %w wrapping an inner error. -/
inductive GoError where
  | errorf (msg : String) : GoError
  | statusCode (e : StatusCodeError) : GoError
  | wrap (msg : String) (inner : GoError) : GoError
deriving DecidableEq, Repr

/-- Outcome of running a Go function that returns an error: a normal return
carrying a value, a non-nil error return, or a runtime panic. -/
inductive GoOutcome (α : Type) where
  | ok (a : α) : GoOutcome α
  | err (e : GoError) : GoOutcome α
  | panic (msg : String) : GoOutcome α
deriving DecidableEq, Repr

/-- The Go runtime message for dereferencing a nil pointer. -/
def nilPointerMsg : String :=
  "runtime error: invalid memory address or nil pointer dereference"

/-- http.Header: a map from field names to lists of values, modelled as an
association list (textproto key canonicalization elided). -/
abbrev Header := List (String × List String)

/-- http.Header.Set: replaces any existing entry for the key with the single
given value (modelled on the association list; entry order is irrelevant to
the map semantics). -/
def headerSet (h : Header) (key value : String) : Header :=
  (h.filter (fun kv => kv.1 ≠ key)) ++ [(key, [value])]

/-- The http.Request fields this package touches: method, URL (with its raw
query string kept separate, as url.URL does), headers, and the optional
body stream, modelled by its full contents. -/
structure Request where
  method : String
  url : String
  rawQuery : String
  header : Header
  body : Option String
deriving DecidableEq, Repr

/-- The http.Response fields this package touches.  The body stream is
modelled by its full contents, so reading it always succeeds. -/
structure Response where
  statusCode : Int
  status : String
  body : String
  contentLength : Int
deriving DecidableEq, Repr

/-- RequestOption: func(*http.Request) error.  The pointer argument may be
nil, hence Option Request; on a normal return the (possibly mutated)
request is threaded through. -/
abbrev RequestOption := Option Request → GoOutcome Request

/-- ResponseParser: func(*http.Response) error, as consumed by the pipeline
(the destination write of a concrete parser is not observed by DoRequest). -/
abbrev ResponseParser := Option Response → GoOutcome Unit

/-- ValidateResponse: func(*http.Response) error.  The pipeline only calls
it with the non-nil response produced by a successful dispatch, so the
argument is a plain Response; none means the response was accepted. -/
abbrev ValidateResponse := Response → Option GoError

/-- The httpClient capability: Do(*http.Request) (*http.Response, error). -/
abbrev Transport := Request → GoOutcome Response

/-- The Client configuration (source lines 71-78).  The logger is modelled
by its presence only, since logging has no control-flow impact. -/
structure Client where
  endpoint : String
  log : Option Unit
  httpClient : Transport
  requestOptionsChain : List RequestOption
  validateResponseFn : ValidateResponse
  debug : Bool

/-- Base64 alphabet character at index n (base64.StdEncoding). -/
def b64char (n : Nat) : Char :=
  ("ABCDEFGHIJKLMNOPQRSTUVWXYZabcdefghijklmnopqrstuvwxyz0123456789+/").toList.getD n 'A'

/-- base64.StdEncoding.EncodeToString over a byte list, three input bytes at
a time with = padding. -/
def base64EncodeBytes : List UInt8 → String
  | [] => ""
  | [a] =>
      String.mk [b64char (a.toNat / 4), b64char ((a.toNat % 4) * 16), '=', '=']
  | [a, b] =>
      String.mk [b64char (a.toNat / 4), b64char ((a.toNat % 4) * 16 + b.toNat / 16),
                 b64char ((b.toNat % 16) * 4), '=']
  | a :: b :: c :: rest =>
      String.mk [b64char (a.toNat / 4), b64char ((a.toNat % 4) * 16 + b.toNat / 16),
                 b64char ((b.toNat % 16) * 4 + c.toNat / 64), b64char (c.toNat % 64)]
        ++ base64EncodeBytes rest

/-- base64.StdEncoding.EncodeToString of the UTF-8 bytes of a string. -/
def base64Encode (s : String) : String := base64EncodeBytes s.toUTF8.toList

/-- net/http Request.SetBasicAuth: sets the Authorization header to
"Basic " followed by the base64 encoding of username:password. -/
def setBasicAuth (username password : String) (r : Request) : Request :=
  let credential := "Basic " ++ base64Encode (username ++ ":" ++ password)
  { r with header := headerSet r.header "Authorization" credential }

/-- The RequestOption closure appended by RequestBasicAuthOption (source
lines 50-53): calls req.SetBasicAuth and returns nil.  On a nil request,
SetBasicAuth dereferences the nil pointer, a runtime panic. -/
def requestBasicAuthRequestOption (username password : String) : RequestOption :=
  fun req =>
    match req with
    | some r => GoOutcome.ok (setBasicAuth username password r)
    | none => GoOutcome.panic nilPointerMsg

/-- RequestBasicAuthOption (source lines 48-55): a client-configuration
option appending the basic-auth RequestOption to the global chain. -/
def RequestBasicAuthOption (username password : String) : Client → Client :=
  fun c =>
    { c with requestOptionsChain :=
        c.requestOptionsChain ++ [requestBasicAuthRequestOption username password] }

/-- WithHeadersOpt (source lines 109-117): errors when the header set or the
request is nil; otherwise assigns the given header set as the request's
entire header collection. -/
def WithHeadersOpt (header : Option Header) : RequestOption :=
  fun req =>
    match header, req with
    | some h, some r => GoOutcome.ok { r with header := h }
    | _, _ => GoOutcome.err (GoError.errorf "WithHeadersOpt error")

/-- RawStringParser (source lines 137-150): errors when the response or the
destination pointer is nil; otherwise reads the whole body and assigns it,
as a string, through the destination.  The ok value is the new contents of
the destination cell (the body read cannot fail in this model). -/
def RawStringParser (dst : Option String) (resp : Option Response) :
    GoOutcome String :=
  match resp, dst with
  | some r, some _ => GoOutcome.ok r.body
  | _, _ => GoOutcome.err (GoError.errorf "RawStringParser function error")

/-- RawBodyParser (source lines 152-165): errors when the response or the
destination pointer is nil; otherwise reads the whole body and assigns its
raw bytes through the destination.  The ok value is the new contents of the
destination cell. -/
def RawBodyParser (dst : Option (List UInt8)) (resp : Option Response) :
    GoOutcome (List UInt8) :=
  match resp, dst with
  | some r, some _ => GoOutcome.ok r.body.toUTF8.toList
  | _, _ => GoOutcome.err (GoError.errorf "RawBodyParser function error")

/-- NoBodyParser (source lines 167-174): there is no nil check on the
response — evaluating resp.ContentLength on a nil response dereferences a
nil pointer, a runtime panic.  With a non-nil response, when the content
length is nonzero and the logger is non-nil the response is dumped to the
log (observability only, elided here), and nil is returned in every case. -/
def NoBodyParser (_lg : Option Unit) : ResponseParser :=
  fun resp =>
    match resp with
    | none => GoOutcome.panic nilPointerMsg
    | some _ => GoOutcome.ok ()

/-- JsonParser (source lines 176-183): errors when the response or the
destination is nil; otherwise runs the encoding/json stream decoder on the
body into the destination and returns its result.  The decoder itself and
the decoded value are external (encoding/json), so they are abstracted: the
decode argument gives the decoder's error, if any, on the body text, and
the destination is modelled by its nilness. -/
def JsonParser (decode : String → Option GoError) (dst : Option Unit) :
    ResponseParser :=
  fun resp =>
    match resp, dst with
    | some r, some _ =>
        match decode r.body with
        | some e => GoOutcome.err e
        | none => GoOutcome.ok ()
    | _, _ => GoOutcome.err (GoError.errorf "JsonParser function error")

/-- ResponseValidator (source lines 185-200), the default validator: when
the status code exceeds 300 it reads the whole body and rejects with a
StatusCodeError carrying code, status text and body; otherwise it accepts
(the body read cannot fail in this model). -/
def ResponseValidator (resp : Response) : Option GoError :=
  if resp.statusCode > 300 then
    some (GoError.statusCode
      { Code := resp.statusCode, Status := resp.status, Body := resp.body })
  else
    none

/-- One option-application loop of DoRequest (source lines 262-266 and
269-273; the two loops have identical bodies, including the wrap message —
the per-call loop reuses the text "failed to apply global request option").
Each option is applied to the request in list order; a non-nil error stops
the loop and is wrapped; a panic propagates. -/
def applyChain : List RequestOption → Request → GoOutcome Request
  | [], req => GoOutcome.ok req
  | opt :: rest, req =>
      match opt (some req) with
      | GoOutcome.ok req1 => applyChain rest req1
      | GoOutcome.err e =>
          GoOutcome.err (GoError.wrap "failed to apply global request option" e)
      | GoOutcome.panic m => GoOutcome.panic m

/-- The option phase of DoRequest: the global chain loop followed by the
per-call chain loop. -/
def optionsPhase (c : Client) (options : List RequestOption) (req : Request) :
    GoOutcome Request :=
  match applyChain c.requestOptionsChain req with
  | GoOutcome.ok req1 => applyChain options req1
  | GoOutcome.err e => GoOutcome.err e
  | GoOutcome.panic m => GoOutcome.panic m

/-- Observable pipeline events of one DoRequest call, in occurrence order:
the transport dispatch, the validator run, the parser run, and the deferred
resp.Body.Close firing at function return. -/
inductive Event where
  | sent : Event
  | validatorRan : Event
  | parserRan : Event
  | bodyClosed : Event
deriving DecidableEq, Repr

/-- The dispatch-onward phase of DoRequest (source lines 279-294): call the
transport; on its error return that error (no response, nothing to close).
On success, defer resp.Body.Close — it fires at return on every later path
— then validate (returning the validator's error on rejection, with the
parser never run) and otherwise run the parser and return its result; a
parser panic propagates after the deferred close.  Debug dumps are elided. -/
def dispatchPhase (c : Client) (theParser : ResponseParser) (req : Request) :
    GoOutcome Unit × List Event :=
  match c.httpClient req with
  | GoOutcome.err e => (GoOutcome.err e, [Event.sent])
  | GoOutcome.panic m => (GoOutcome.panic m, [Event.sent])
  | GoOutcome.ok resp =>
      match c.validateResponseFn resp with
      | some e =>
          (GoOutcome.err e, [Event.sent, Event.validatorRan, Event.bodyClosed])
      | none =>
          match theParser (some resp) with
          | GoOutcome.ok _ =>
              (GoOutcome.ok (),
               [Event.sent, Event.validatorRan, Event.parserRan, Event.bodyClosed])
          | GoOutcome.err e =>
              (GoOutcome.err e,
               [Event.sent, Event.validatorRan, Event.parserRan, Event.bodyClosed])
          | GoOutcome.panic m =>
              (GoOutcome.panic m,
               [Event.sent, Event.validatorRan, Event.parserRan, Event.bodyClosed])

/-- The fresh request built by DoRequest (source line 256):
http.NewRequestWithContext(ctx, method, c.endpoint+path, nil) — the given
method, URL from endpoint and path, no query, empty headers, nil body
(construction failure on a malformed method or URL is out of scope for the
modelled claims). -/
def initialRequest (c : Client) (method path : String) : Request :=
  { method := method, url := c.endpoint ++ path, rawQuery := "", header := [],
    body := none }

/-- DoRequest (source lines 255-294): build the request, apply the global
then the per-call option chain (an error in either aborts before any
dispatch), then dispatch, validate and parse.  The result is paired with
the trace of observable events of the call. -/
def DoRequest (c : Client) (method path : String) (theParser : ResponseParser)
    (options : List RequestOption) : GoOutcome Unit × List Event :=
  match optionsPhase c options (initialRequest c method path) with
  | GoOutcome.err e => (GoOutcome.err e, [])
  | GoOutcome.panic m => (GoOutcome.panic m, [])
  | GoOutcome.ok req => dispatchPhase c theParser req

/-- DoRequestNoBody (source lines 247-249): DoRequest with the no-body
parser over the client's logger. -/
def DoRequestNoBody (c : Client) (method path : String)
    (options : List RequestOption) : GoOutcome Unit × List Event :=
  DoRequest c method path (NoBodyParser c.log) options

/-- Get (source lines 243-245): DoRequestNoBody with method GET. -/
def Get (c : Client) (path : String) (options : List RequestOption) :
    GoOutcome Unit × List Event :=
  DoRequestNoBody c "GET" path options

/-- Whether a GoOutcome is a non-nil error return (as opposed to a normal
return or a panic). -/
def GoOutcome.isErr {α : Type} : GoOutcome α → Bool
  | GoOutcome.err _ => true
  | _ => false

/-! Test fixtures used by concrete witnesses: a 200 response, a 404
response, clients whose transport doubles return them, and a request option
that appends a tag to the raw query so that application order is visible. -/

/-- Fixture: an accepted response. -/
def respOkEx : Response :=
  { statusCode := 200, status := "200 OK", body := "ok", contentLength := 2 }

/-- Fixture: a 404 response with body "not found". -/
def respNotFound : Response :=
  { statusCode := 404, status := "404 Not Found", body := "not found",
    contentLength := 9 }

/-- Fixture: a client whose transport double returns the 200 response. -/
def exClient200 : Client :=
  { endpoint := "http://host", log := some (),
    httpClient := fun _ => GoOutcome.ok respOkEx,
    requestOptionsChain := [], validateResponseFn := ResponseValidator,
    debug := false }

/-- Fixture: a client whose transport double returns the 404 response. -/
def exClient404 : Client :=
  { exClient200 with httpClient := fun _ => GoOutcome.ok respNotFound }

/-- Fixture: a request option appending a tag to the raw query, making
application order observable. -/
def exTagOption (t : String) : RequestOption :=
  fun req =>
    match req with
    | some r => GoOutcome.ok { r with rawQuery := r.rawQuery ++ t }
    | none => GoOutcome.err (GoError.errorf "nil request")

/-- Fixture: a client with global option chain [A, B] of tag options. -/
def exClientAB : Client :=
  { exClient200 with
    requestOptionsChain := [exTagOption "A", exTagOption "B"] }

/-- Fixture: a request with a pre-existing header entry. -/
def exRequest : Request :=
  { method := "GET", url := "http://host/p", rawQuery := "",
    header := [("Accept", ["text"])], body := none }

/-- Appending option lists runs the first list first; the second runs only
when every option of the first succeeded. -/
theorem applyChain_append (xs ys : List RequestOption) (req : Request) :
    applyChain (xs ++ ys) req =
      match applyChain xs req with
      | GoOutcome.ok r => applyChain ys r
      | GoOutcome.err e => GoOutcome.err e
      | GoOutcome.panic m => GoOutcome.panic m := by
  induction xs generalizing req with
  | nil => rfl
  | cons opt rest ih =>
      simp only [List.cons_append, applyChain]
      cases opt (some req) with
      | ok r => exact ih r
      | err e => rfl
      | panic m => rfl

/-- Every non-nil error produced by an option-application loop is wrapped
with the loop's context message. -/
theorem applyChain_err_wrapped (xs : List RequestOption) (req : Request)
    (e : GoError) (h : applyChain xs req = GoOutcome.err e) :
    ∃ e0, e = GoError.wrap "failed to apply global request option" e0 := by
  induction xs generalizing req with
  | nil => exact absurd h (by simp [applyChain])
  | cons opt rest ih =>
      simp only [applyChain] at h
      cases hopt : opt (some req) with
      | ok r => rw [hopt] at h; exact ih r h
      | err e1 =>
          rw [hopt] at h
          exact ⟨e1, (GoOutcome.err.injEq _ _).mp h.symm⟩
      | panic m => rw [hopt] at h; cases h

/-- Every non-nil error produced by the option phase of DoRequest is
wrapped with the loop's context message. -/
theorem optionsPhase_err_wrapped (c : Client) (options : List RequestOption)
    (req : Request) (e : GoError)
    (h : optionsPhase c options req = GoOutcome.err e) :
    ∃ e0, e = GoError.wrap "failed to apply global request option" e0 := by
  unfold optionsPhase at h
  cases hg : applyChain c.requestOptionsChain req with
  | ok r => rw [hg] at h; exact applyChain_err_wrapped options r e h
  | err e1 =>
      rw [hg] at h
      obtain rfl : e1 = e := (GoOutcome.err.injEq _ _).mp h
      exact applyChain_err_wrapped c.requestOptionsChain req _ hg
  | panic m => rw [hg] at h; cases h

/-- C1: the default validator rejects exactly when the status code is
strictly greater than 300 — 301 and above are rejected, 300 and below are
accepted — and on rejection the returned StatusCodeError carries the
response's status code and a body field equal to the full response body
text. -/
theorem responseValidator_boundary (resp : Response) :
    (300 < resp.statusCode →
      ResponseValidator resp =
        some (GoError.statusCode
          { Code := resp.statusCode, Status := resp.status, Body := resp.body }))
    ∧ (resp.statusCode ≤ 300 → ResponseValidator resp = none) := by
  constructor
  · intro h
    simp [ResponseValidator, h]
  · intro h
    simp [ResponseValidator, not_lt.mpr h]

/-- Witness for C1: the validator rejects a 404 response with an error
carrying code 404 and the full body, and accepts a response with status
code exactly 300. -/
theorem responseValidator_boundary_witness :
    ResponseValidator respNotFound =
      some (GoError.statusCode
        { Code := 404, Status := "404 Not Found", Body := "not found" })
    ∧ ResponseValidator
        { statusCode := 300, status := "300 Multiple Choices", body := "b",
          contentLength := 1 } = none :=
  ⟨(responseValidator_boundary respNotFound).1 (by decide),
   (responseValidator_boundary _).2 (by decide)⟩

/-- C6: for every non-nil header set h and non-nil request, the Headers
option makes the request's header collection equal to h exactly, replacing
whatever headers the request carried before, and changes nothing else. -/
theorem withHeadersOpt_replaces (h : Header) (r : Request) :
    WithHeadersOpt (some h) (some r) = GoOutcome.ok { r with header := h } :=
  rfl

/-- C9: a header-only option (one that rewrites just the header collection,
such as the basic-auth request option) followed by the Headers option
yields exactly the headers h, the same outcome as the Headers option alone:
the earlier header write, for example the injected Authorization entry, is
silently discarded. -/
theorem headersOpt_discards_prior_header_writes (h : Header) (r : Request) :
    (∀ opt : RequestOption,
        (∀ r0 : Request, ∃ h0 : Header,
          opt (some r0) = GoOutcome.ok { r0 with header := h0 }) →
        applyChain [opt, WithHeadersOpt (some h)] r =
          GoOutcome.ok { r with header := h })
    ∧ (∀ username password : String,
        applyChain [requestBasicAuthRequestOption username password,
            WithHeadersOpt (some h)] r
          = applyChain [WithHeadersOpt (some h)] r)
    ∧ applyChain [WithHeadersOpt (some h)] r = GoOutcome.ok { r with header := h } := by
  refine ⟨?_, ?_, rfl⟩
  · intro opt hopt
    obtain ⟨h0, hh⟩ := hopt r
    simp only [applyChain, hh, WithHeadersOpt]
  · intro username password
    cases r
    rfl

/-- Witness for C9: applying the basic-auth option and then the Headers
option to a concrete request leaves exactly the supplied header set. -/
theorem headersOpt_discards_prior_header_writes_witness :
    applyChain [requestBasicAuthRequestOption "user" "pass",
        WithHeadersOpt (some [("X-Test", ["1"])])] exRequest
      = GoOutcome.ok { exRequest with header := [("X-Test", ["1"])] } :=
  (headersOpt_discards_prior_header_writes [("X-Test", ["1"])] exRequest).1
    (requestBasicAuthRequestOption "user" "pass")
    (fun _ => ⟨_, rfl⟩)

/-- C5 counterexample: the no-body parser, given a nil response, does not
return a configuration error — evaluating resp.ContentLength dereferences
the nil pointer, a runtime panic (a crash), so the claim fails for the
no-body parser. -/
theorem noBodyParser_nil_response_crashes :
    NoBodyParser (some ()) none = GoOutcome.panic nilPointerMsg
    ∧ (NoBodyParser (some ()) none).isErr = false :=
  ⟨rfl, rfl⟩

/-- C5 amended: the JSON, raw-string and raw-bytes parsers, when given a
nil response or a nil destination, return a descriptive configuration
error; the no-body parser takes no destination at all and, when given a
nil response, crashes with a nil-pointer dereference panic instead of
returning an error. -/
theorem parsers_nil_input_checks :
    (∀ (decode : String → Option GoError) (dst : Option Unit)
        (resp : Option Response), resp = none ∨ dst = none →
        JsonParser decode dst resp =
          GoOutcome.err (GoError.errorf "JsonParser function error"))
    ∧ (∀ (dst : Option String) (resp : Option Response),
        resp = none ∨ dst = none →
        RawStringParser dst resp =
          GoOutcome.err (GoError.errorf "RawStringParser function error"))
    ∧ (∀ (dst : Option (List UInt8)) (resp : Option Response),
        resp = none ∨ dst = none →
        RawBodyParser dst resp =
          GoOutcome.err (GoError.errorf "RawBodyParser function error"))
    ∧ (∀ lg : Option Unit, NoBodyParser lg none = GoOutcome.panic nilPointerMsg) := by
  refine ⟨?_, ?_, ?_, fun lg => rfl⟩
  · rintro decode dst resp (rfl | rfl)
    · cases dst <;> rfl
    · cases resp <;> rfl
  · rintro dst resp (rfl | rfl)
    · cases dst <;> rfl
    · cases resp <;> rfl
  · rintro dst resp (rfl | rfl)
    · cases dst <;> rfl
    · cases resp <;> rfl

/-- Witness for C5 (amended): each parser evaluated at a concrete nil
input. -/
theorem parsers_nil_input_checks_witness :
    JsonParser (fun _ => none) none (some respOkEx) =
      GoOutcome.err (GoError.errorf "JsonParser function error")
    ∧ RawStringParser none none =
      GoOutcome.err (GoError.errorf "RawStringParser function error")
    ∧ RawBodyParser (some []) none =
      GoOutcome.err (GoError.errorf "RawBodyParser function error")
    ∧ NoBodyParser none none = GoOutcome.panic nilPointerMsg :=
  ⟨parsers_nil_input_checks.1 (fun _ => none) none (some respOkEx) (Or.inr rfl),
   parsers_nil_input_checks.2.1 none none (Or.inl rfl),
   parsers_nil_input_checks.2.2.1 (some []) none (Or.inl rfl),
   parsers_nil_input_checks.2.2.2 none⟩

/-- C2: on a client whose global option chain is [A, B], DoRequest with
per-call options [C] applies the options in exactly the order A, B, C —
the option phase equals one chain run over [A, B, C], which by definition
applies A first, then B, then C, stopping at the first failure. -/
theorem doRequest_option_order (c : Client) (A B C : RequestOption)
    (hc : c.requestOptionsChain = [A, B]) (method path : String)
    (theParser : ResponseParser) :
    (∀ req : Request, optionsPhase c [C] req = applyChain [A, B, C] req)
    ∧ DoRequest c method path theParser [C]
        = (match applyChain [A, B, C] (initialRequest c method path) with
           | GoOutcome.ok req => dispatchPhase c theParser req
           | GoOutcome.err e => (GoOutcome.err e, [])
           | GoOutcome.panic m => (GoOutcome.panic m, [])) := by
  have key : ∀ req : Request, optionsPhase c [C] req = applyChain [A, B, C] req := by
    intro req
    rw [show ([A, B, C] : List RequestOption) = [A, B] ++ [C] from rfl,
      applyChain_append]
    simp only [optionsPhase, hc]
  refine ⟨key, ?_⟩
  simp only [DoRequest, key]
  cases applyChain [A, B, C] (initialRequest c method path) <;> rfl

/-- Witness for C2: on the fixture client with global chain [A, B] and
per-call option C, each tagging the raw query, the option phase runs the
single chain [A, B, C] and the dispatched request's query reads "ABC". -/
theorem doRequest_option_order_witness :
    optionsPhase exClientAB [exTagOption "C"] exRequest
      = applyChain [exTagOption "A", exTagOption "B", exTagOption "C"] exRequest
    ∧ optionsPhase exClientAB [exTagOption "C"] exRequest
      = GoOutcome.ok { exRequest with rawQuery := "ABC" } :=
  ⟨(doRequest_option_order exClientAB (exTagOption "A") (exTagOption "B")
      (exTagOption "C") rfl "GET" "/p" (NoBodyParser (some ()))).1 exRequest,
   ((doRequest_option_order exClientAB (exTagOption "A") (exTagOption "B")
      (exTagOption "C") rfl "GET" "/p" (NoBodyParser (some ()))).1 exRequest).trans
     (by rfl)⟩

/-- C3: on every DoRequest call that reaches validation (the option phase
succeeded and the transport returned a response), exactly one of two things
happens: the validator rejects, DoRequest returns the validator's error and
the parser never runs; or the validator accepts, the parser runs exactly
once on the response, and DoRequest returns the parser's result. -/
theorem doRequest_validator_gates_parsing (c : Client) (method path : String)
    (theParser : ResponseParser) (options : List RequestOption)
    (req1 : Request) (resp : Response)
    (hopt : optionsPhase c options (initialRequest c method path) = GoOutcome.ok req1)
    (hsend : c.httpClient req1 = GoOutcome.ok resp) :
    (∀ e, c.validateResponseFn resp = some e →
        DoRequest c method path theParser options
          = (GoOutcome.err e, [Event.sent, Event.validatorRan, Event.bodyClosed])
        ∧ (DoRequest c method path theParser options).2.count Event.parserRan = 0)
    ∧ (c.validateResponseFn resp = none →
        (DoRequest c method path theParser options).2.count Event.parserRan = 1
        ∧ (DoRequest c method path theParser options).1 = theParser (some resp)) := by
  constructor
  · intro e hv
    have hD : DoRequest c method path theParser options
        = (GoOutcome.err e, [Event.sent, Event.validatorRan, Event.bodyClosed]) := by
      simp only [DoRequest, hopt, dispatchPhase, hsend, hv]
    have hT : (DoRequest c method path theParser options).2
        = [Event.sent, Event.validatorRan, Event.bodyClosed] := by rw [hD]
    exact ⟨hD, by rw [hT]; decide⟩
  · intro hv
    cases hp : theParser (some resp) with
    | ok u =>
        cases u
        have hT : (DoRequest c method path theParser options).2
            = [Event.sent, Event.validatorRan, Event.parserRan, Event.bodyClosed] := by
          simp only [DoRequest, hopt, dispatchPhase, hsend, hv, hp]
        have hE : (DoRequest c method path theParser options).1 = GoOutcome.ok () := by
          simp only [DoRequest, hopt, dispatchPhase, hsend, hv, hp]
        exact ⟨by rw [hT]; decide, by rw [hE]⟩
    | err e =>
        have hT : (DoRequest c method path theParser options).2
            = [Event.sent, Event.validatorRan, Event.parserRan, Event.bodyClosed] := by
          simp only [DoRequest, hopt, dispatchPhase, hsend, hv, hp]
        have hE : (DoRequest c method path theParser options).1 = GoOutcome.err e := by
          simp only [DoRequest, hopt, dispatchPhase, hsend, hv, hp]
        exact ⟨by rw [hT]; decide, by rw [hE]⟩
    | panic m =>
        have hT : (DoRequest c method path theParser options).2
            = [Event.sent, Event.validatorRan, Event.parserRan, Event.bodyClosed] := by
          simp only [DoRequest, hopt, dispatchPhase, hsend, hv, hp]
        have hE : (DoRequest c method path theParser options).1 = GoOutcome.panic m := by
          simp only [DoRequest, hopt, dispatchPhase, hsend, hv, hp]
        exact ⟨by rw [hT]; decide, by rw [hE]⟩

/-- Witness for C3: the fixture client whose transport double returns 404
with body "not found" — DoRequest returns the validator's StatusCodeError
(code 404) and the parser-run count is zero. -/
theorem doRequest_validator_gates_parsing_witness :
    DoRequest exClient404 "GET" "/p" (JsonParser (fun _ => none) (some ())) []
      = (GoOutcome.err (GoError.statusCode
          { Code := 404, Status := "404 Not Found", Body := "not found" }),
         [Event.sent, Event.validatorRan, Event.bodyClosed])
    ∧ (DoRequest exClient404 "GET" "/p"
        (JsonParser (fun _ => none) (some ())) []).2.count Event.parserRan = 0 :=
  (doRequest_validator_gates_parsing exClient404 "GET" "/p"
      (JsonParser (fun _ => none) (some ())) []
      (initialRequest exClient404 "GET" "/p") respNotFound rfl rfl).1
    (GoError.statusCode
      { Code := 404, Status := "404 Not Found", Body := "not found" })
    (by decide)

/-- C4: on every DoRequest call in which the transport returns a response,
the deferred body close fires exactly once before the call returns, on
every exit path — validator rejection, parser success, parser failure, and
a parser panic alike. -/
theorem doRequest_body_closed_once (c : Client) (method path : String)
    (theParser : ResponseParser) (options : List RequestOption)
    (req1 : Request) (resp : Response)
    (hopt : optionsPhase c options (initialRequest c method path) = GoOutcome.ok req1)
    (hsend : c.httpClient req1 = GoOutcome.ok resp) :
    (DoRequest c method path theParser options).2.count Event.bodyClosed = 1 := by
  cases hv : c.validateResponseFn resp with
  | some e =>
      have hT : (DoRequest c method path theParser options).2
          = [Event.sent, Event.validatorRan, Event.bodyClosed] := by
        simp only [DoRequest, hopt, dispatchPhase, hsend, hv]
      rw [hT]; decide
  | none =>
      cases hp : theParser (some resp) with
      | ok u =>
          have hT : (DoRequest c method path theParser options).2
              = [Event.sent, Event.validatorRan, Event.parserRan, Event.bodyClosed] := by
            simp only [DoRequest, hopt, dispatchPhase, hsend, hv, hp]
          rw [hT]; decide
      | err e =>
          have hT : (DoRequest c method path theParser options).2
              = [Event.sent, Event.validatorRan, Event.parserRan, Event.bodyClosed] := by
            simp only [DoRequest, hopt, dispatchPhase, hsend, hv, hp]
          rw [hT]; decide
      | panic m =>
          have hT : (DoRequest c method path theParser options).2
              = [Event.sent, Event.validatorRan, Event.parserRan, Event.bodyClosed] := by
            simp only [DoRequest, hopt, dispatchPhase, hsend, hv, hp]
          rw [hT]; decide

/-- Witness for C4: on the 404 fixture call the body-close count is one. -/
theorem doRequest_body_closed_once_witness :
    (DoRequest exClient404 "GET" "/p"
      (JsonParser (fun _ => none) (some ())) []).2.count Event.bodyClosed = 1 :=
  doRequest_body_closed_once exClient404 "GET" "/p"
    (JsonParser (fun _ => none) (some ())) []
    (initialRequest exClient404 "GET" "/p") respNotFound rfl rfl

/-- C7: when the option phase fails — any option of the global or per-call
chain returned a non-nil error — DoRequest returns that error, which is
always wrapped with the loop's context message, and the transport is never
invoked (the trace is empty, in particular it holds no dispatch event). -/
theorem doRequest_option_error_no_dispatch (c : Client) (method path : String)
    (theParser : ResponseParser) (options : List RequestOption) (e : GoError)
    (hopt : optionsPhase c options (initialRequest c method path) = GoOutcome.err e) :
    DoRequest c method path theParser options = (GoOutcome.err e, [])
    ∧ (DoRequest c method path theParser options).2.count Event.sent = 0
    ∧ ∃ e0, e = GoError.wrap "failed to apply global request option" e0 := by
  have hD : DoRequest c method path theParser options = (GoOutcome.err e, []) := by
    simp only [DoRequest, hopt]
  have hT : (DoRequest c method path theParser options).2 = [] := by rw [hD]
  refine ⟨hD, ?_, optionsPhase_err_wrapped c options _ e hopt⟩
  rw [hT]
  decide

/-- Witness for C7: a per-call Headers option with a nil header set makes
DoRequest fail with the wrapped configuration error and an empty trace —
the transport double is never reached. -/
theorem doRequest_option_error_no_dispatch_witness :
    DoRequest exClient200 "GET" "/p" (NoBodyParser (some ())) [WithHeadersOpt none]
      = (GoOutcome.err (GoError.wrap "failed to apply global request option"
          (GoError.errorf "WithHeadersOpt error")), [])
    ∧ (DoRequest exClient200 "GET" "/p" (NoBodyParser (some ()))
        [WithHeadersOpt none]).2.count Event.sent = 0
    ∧ ∃ e0, GoError.wrap "failed to apply global request option"
        (GoError.errorf "WithHeadersOpt error")
        = GoError.wrap "failed to apply global request option" e0 :=
  doRequest_option_error_no_dispatch exClient200 "GET" "/p"
    (NoBodyParser (some ())) [WithHeadersOpt none]
    (GoError.wrap "failed to apply global request option"
      (GoError.errorf "WithHeadersOpt error")) rfl

/-- C8: with the JSON parser built over a nil destination, a call whose
option phase succeeds, whose transport returns a response and whose
validator accepts fails only after dispatch: DoRequest returns the parser's
configuration error and the trace shows the dispatch and the validator run
before the parser run — the pipeline does not fail pre-dispatch on a nil
destination. -/
theorem jsonParser_nil_dst_fails_post_dispatch (c : Client) (method path : String)
    (decode : String → Option GoError) (options : List RequestOption)
    (req1 : Request) (resp : Response)
    (hopt : optionsPhase c options (initialRequest c method path) = GoOutcome.ok req1)
    (hsend : c.httpClient req1 = GoOutcome.ok resp)
    (hval : c.validateResponseFn resp = none) :
    DoRequest c method path (JsonParser decode none) options
      = (GoOutcome.err (GoError.errorf "JsonParser function error"),
         [Event.sent, Event.validatorRan, Event.parserRan, Event.bodyClosed]) := by
  simp only [DoRequest, hopt, dispatchPhase, hsend, hval, JsonParser]

/-- Witness for C8: the 200 fixture client with a nil-destination JSON
parser — the call dispatches, validates, and only then surfaces the
configuration error. -/
theorem jsonParser_nil_dst_fails_post_dispatch_witness :
    DoRequest exClient200 "GET" "/p" (JsonParser (fun _ => none) none) []
      = (GoOutcome.err (GoError.errorf "JsonParser function error"),
         [Event.sent, Event.validatorRan, Event.parserRan, Event.bodyClosed]) :=
  jsonParser_nil_dst_fails_post_dispatch exClient200 "GET" "/p" (fun _ => none) []
    (initialRequest exClient200 "GET" "/p") respOkEx rfl rfl (by decide)

/-- C10: the no-body parser returns success on every non-nil response,
whatever its body or content length, so DoRequestNoBody and Get never
surface a parse error: whenever the option phase, the transport and the
validator all succeed, they return success. -/
theorem noBodyParser_never_errors :
    (∀ (lg : Option Unit) (r : Response), NoBodyParser lg (some r) = GoOutcome.ok ())
    ∧ (∀ (c : Client) (method path : String) (options : List RequestOption)
        (req1 : Request) (resp : Response),
        optionsPhase c options (initialRequest c method path) = GoOutcome.ok req1 →
        c.httpClient req1 = GoOutcome.ok resp →
        c.validateResponseFn resp = none →
        (DoRequestNoBody c method path options).1 = GoOutcome.ok ())
    ∧ (∀ (c : Client) (path : String) (options : List RequestOption)
        (req1 : Request) (resp : Response),
        optionsPhase c options (initialRequest c "GET" path) = GoOutcome.ok req1 →
        c.httpClient req1 = GoOutcome.ok resp →
        c.validateResponseFn resp = none →
        (Get c path options).1 = GoOutcome.ok ()) := by
  have core : ∀ (c : Client) (method path : String) (options : List RequestOption)
      (req1 : Request) (resp : Response),
      optionsPhase c options (initialRequest c method path) = GoOutcome.ok req1 →
      c.httpClient req1 = GoOutcome.ok resp →
      c.validateResponseFn resp = none →
      (DoRequestNoBody c method path options).1 = GoOutcome.ok () := by
    intro c method path options req1 resp hopt hsend hval
    simp only [DoRequestNoBody, DoRequest, hopt, dispatchPhase, hsend, hval,
      NoBodyParser]
  exact ⟨fun lg r => rfl, core,
    fun c path options req1 resp hopt hsend hval =>
      core c "GET" path options req1 resp hopt hsend hval⟩

/-- Witness for C10: on the 200 fixture client both DoRequestNoBody and Get
return success. -/
theorem noBodyParser_never_errors_witness :
    (DoRequestNoBody exClient200 "GET" "/p" []).1 = GoOutcome.ok ()
    ∧ (Get exClient200 "/p" []).1 = GoOutcome.ok () :=
  ⟨noBodyParser_never_errors.2.1 exClient200 "GET" "/p" []
      (initialRequest exClient200 "GET" "/p") respOkEx rfl rfl (by decide),
   noBodyParser_never_errors.2.2 exClient200 "/p" []
      (initialRequest exClient200 "GET" "/p") respOkEx rfl rfl (by decide)⟩

end GoHttpClient
